import Mathlib

/-!
Shallow embedding of the client-side state logic of the Memory
Cartography frontend (`MemoryApp.tsx`): the memory store, the
client-side sort, the search / narrative / weight-adjust /
location-update handlers, and the narrative keyword extraction.

Modelling conventions:
* a JS string is a `List Char` (`Str`);
* a JS number used as a weight is a `ℚ`;
* a possibly-`undefined` field is an `Option`;
* a backend call is modelled by passing the call's outcome (`Except`
  of the user-visible error message) into the handler, and each
  handler records in its result whether the network request was
  actually issued;
* `new Date(s).getTime()` is an external browser builtin, modelled as
  a parameter `dv : Str → Option Int` (`none` = `NaN`); a comparator
  returning `NaN` is treated as `0` ("no swap") by the sort, matching
  the engine behaviour the code relies on;
* JS `Array.prototype.sort` is a stable sort with respect to the
  comparator, embedded with `List.mergeSort` on `le a b :=
  comparator a b ≤ 0`.
-/

abbrev Str := List Char

/-- Whitespace characters stripped by JS `String.prototype.trim`
(the common ones reachable from a text input). -/
def isJsSpace (c : Char) : Bool :=
  c == ' ' || c == '\t' || c == '\n' || c == '\r' || c == '\x0b' || c == '\x0c'

/-- JS `String.prototype.trim`. -/
def jsTrim (s : Str) : Str :=
  ((s.dropWhile isJsSpace).reverse.dropWhile isJsSpace).reverse

/-- JS `String.prototype.replace` with a *string* pattern: replaces only
the first occurrence of `pat` in `s` by `rep` (an empty pattern matches
at position 0; the dollar substitution patterns JS recognises inside
the replacement string are not modelled — `rep` is inserted
literally). -/
def replaceFirst : Str → Str → Str → Str
  | [], pat, rep => if pat = [] then rep else []
  | c :: rest, pat, rep =>
    if pat.isPrefixOf (c :: rest) then rep ++ (c :: rest).drop pat.length
    else c :: replaceFirst rest pat rep

/-- JS `w || d` for a possibly-`undefined` number `w`: `undefined` and
`0` are falsy and yield the default `d`. -/
def jsOrNum (w : Option ℚ) (d : ℚ) : ℚ :=
  match w with
  | none => d
  | some x => if x = 0 then d else x

/-- The `Memory` interface of `MemoryApp.tsx`. -/
structure Memory where
  id : Int
  title : Str
  location : Str
  date : Str
  keywords : Option (List Str)
  type : Str
  description : Option Str
  weight : Option ℚ
  filename : Option Str
  image_url : Option Str
  original_path : Option Str
  processed_path : Option Str
  openai_keywords : Option (List Str)
  openai_description : Option Str
  impact_weight : Option ℚ
  detected_objects : Option (List Str)
  relevance_score : Option ℚ
deriving DecidableEq

/-- The `SortOption` type of `MemoryApp.tsx`. -/
inductive SortOption where
  | weight
  | date
  | relevance
deriving DecidableEq

/-- The effective weight used by the code's weight comparator:
`m.weight || 1.0`. -/
def jsEffWeight (m : Memory) : ℚ := jsOrNum m.weight 1

/-- "`a` may come before `b`" under the weight comparator
`(b.weight || 1.0) - (a.weight || 1.0)` (comparator value `≤ 0`). -/
def weightLe (a b : Memory) : Bool :=
  decide (jsEffWeight b ≤ jsEffWeight a)

/-- "`a` may come before `b`" under the date comparator
`new Date(b.date).getTime() - new Date(a.date).getTime()`; an
unparseable date makes the comparator `NaN`, treated as `0`. -/
def dateLe (dv : Str → Option Int) (a b : Memory) : Bool :=
  match dv b.date, dv a.date with
  | some y, some x => decide (y ≤ x)
  | _, _ => true

/-- `sortMemories` of `MemoryApp.tsx`: copy the array and stably sort
it with the criterion's comparator (`relevance` compares everything
equal, i.e. keeps the server order). -/
def sortMemories (dv : Str → Option Int) (memoriesToSort : List Memory)
    (sortOption : SortOption) : List Memory :=
  match sortOption with
  | .weight => memoriesToSort.mergeSort weightLe
  | .date => memoriesToSort.mergeSort (dateLe dv)
  | .relevance => memoriesToSort.mergeSort (fun _ _ => true)

/-- A backend record sent with the full-record form of a location
update; `none` marks a field absent from the response object. -/
structure MemoryPatch where
  id : Option Int := none
  title : Option Str := none
  location : Option Str := none
  date : Option Str := none
  keywords : Option (List Str) := none
  type : Option Str := none
  description : Option Str := none
  weight : Option ℚ := none
  filename : Option Str := none
  image_url : Option Str := none
  original_path : Option Str := none
  processed_path : Option Str := none
  openai_keywords : Option (List Str) := none
  openai_description : Option Str := none
  impact_weight : Option ℚ := none
  detected_objects : Option (List Str) := none
  relevance_score : Option ℚ := none
deriving DecidableEq

/-- Spread override for an optional field: a field present in the
patch wins, an absent one keeps the local value. -/
def orKeep (u : Option α) (m : Option α) : Option α :=
  match u with
  | some x => some x
  | none => m

/-- The full-record branch of `handleLocationUpdate`:
`{ ...memory, ...updatedMemory, weight: updatedMemory.impact_weight ||
memory.weight, keywords: updatedMemory.openai_keywords ||
memory.keywords }` (an empty keyword array is truthy and wins; an
`impact_weight` of `0` is falsy and falls back). -/
def mergeFull (m : Memory) (u : MemoryPatch) : Memory :=
  { id := u.id.getD m.id
    title := u.title.getD m.title
    location := u.location.getD m.location
    date := u.date.getD m.date
    keywords := orKeep u.openai_keywords m.keywords
    type := u.type.getD m.type
    description := orKeep u.description m.description
    weight := (match u.impact_weight with
      | some w => if w = 0 then m.weight else some w
      | none => m.weight)
    filename := orKeep u.filename m.filename
    image_url := orKeep u.image_url m.image_url
    original_path := orKeep u.original_path m.original_path
    processed_path := orKeep u.processed_path m.processed_path
    openai_keywords := orKeep u.openai_keywords m.openai_keywords
    openai_description := orKeep u.openai_description m.openai_description
    impact_weight := orKeep u.impact_weight m.impact_weight
    detected_objects := orKeep u.detected_objects m.detected_objects
    relevance_score := orKeep u.relevance_score m.relevance_score }

def unknownLocation : Str := "Unknown Location".data

def titleSep : Str := " - ".data

/-- The per-record function mapped over the store by
`handleLocationUpdate`. -/
def locUpdateFn (memoryId : Int) (newLocation : Str)
    (updatedMemory : Option MemoryPatch) (memory : Memory) : Memory :=
  if memory.id = memoryId then
    match updatedMemory with
    | some u => mergeFull memory u
    | none =>
      { memory with
        location := newLocation
        title := if memory.location = unknownLocation then
            newLocation ++ titleSep ++ memory.date
          else replaceFirst memory.title memory.location newLocation }
  else memory

/-- A JSON value appearing in the narrative response's `keywords`
array. -/
inductive KwEntry where
  | jstr (s : Str)
  | jobj (tyField : Option Str) (textField : Option Str)
  | jnull
  | jbool (b : Bool)
  | jnum (n : Int)
deriving DecidableEq

def primaryTag : Str := "primary".data

/-- JS truthiness of a keyword entry (`""`, `null`, `false`, `0` are
falsy; objects and everything else are truthy). -/
def kwTruthy : KwEntry → Bool
  | .jstr s => !s.isEmpty
  | .jobj _ _ => true
  | .jnull => false
  | .jbool b => b
  | .jnum n => n != 0

/-- `typeof kw === 'string'`. -/
def kwIsString : KwEntry → Bool
  | .jstr _ => true
  | _ => false

/-- `kw.type` (`undefined` on anything but an object). -/
def kwTypeField : KwEntry → Option Str
  | .jobj ty _ => ty
  | _ => none

/-- `kw.text` (`undefined` on anything but an object). -/
def kwTextField : KwEntry → Option Str
  | .jobj _ tx => tx
  | _ => none

/-- `typeof kw === 'string' ? kw : kw.text` (the result may be
`undefined`, hence `Option Str`). -/
def kwMapped : KwEntry → Option Str
  | .jstr s => some s
  | e => kwTextField e

/-- The keyword extraction of `generateNarrative`:
`keywords.filter(kw => kw && (typeof kw === 'string' ||
(kw.type === 'primary'))).map(kw => typeof kw === 'string' ? kw :
kw.text)`. -/
def extractKeywords (ks : List KwEntry) : List (Option Str) :=
  (ks.filter fun kw =>
    kwTruthy kw && (kwIsString kw || kwTypeField kw == some primaryTag)).map kwMapped

/-- The narrative endpoint's response body; `keywords = none` stands
for an absent or non-array field. -/
structure NarrativeResponse where
  narrative_text : Option Str := none
  text : Option Str := none
  keywords : Option (List KwEntry) := none
deriving DecidableEq

/-- `if (narrativeData.narrative_text) ... else if (narrativeData.text)
... else ''` — note an *empty* string is falsy and falls through. -/
def pickNarrativeText (r : NarrativeResponse) : Str :=
  match r.narrative_text with
  | some s =>
    if s = [] then
      match r.text with
      | some t => t
      | none => []
    else s
  | none =>
    match r.text with
    | some t => t
    | none => []

/-- The component state of `MemoryApp` (the slots the handlers read or
write); `sessionId` is the `session` query parameter of the page. -/
structure AppState where
  memories : List Memory
  narrative : Str
  searchTerm : Str
  error : Option Str
  loading : Bool
  memoryType : Str
  highlightedKeywords : List (Option Str)
  sortBy : SortOption
  resetMessage : Option Str
  sessionId : Option Str
deriving DecidableEq

/-- A handler's result: the new state, and whether the backend request
was actually issued. -/
structure Outcome where
  state : AppState
  requested : Bool
deriving DecidableEq

def pleaseEnterMsg : Str := "Please enter a search term".data

def noSessionMsg : Str :=
  "No session ID found. Please start over from the upload page.".data

def failedIncreaseMsg : Str := "Failed to increase memory weight".data

def failedDecreaseMsg : Str := "Failed to decrease memory weight".data

/-- `searchMemories` of `MemoryApp.tsx`; `resp` is the outcome of
`api.get('/api/memories/search', ...)`, carrying the extracted
user-visible message on failure. -/
def searchMemories (st : AppState) (resp : Except Str (List Memory)) : Outcome :=
  if jsTrim st.searchTerm = [] then
    ⟨{ st with error := some pleaseEnterMsg }, false⟩
  else
    match st.sessionId with
    | none =>
      ⟨{ st with loading := false, error := some noSessionMsg }, false⟩
    | some _ =>
      match resp with
      | .ok data => ⟨{ st with loading := false, error := none, memories := data }, true⟩
      | .error e => ⟨{ st with loading := false, error := some e }, true⟩

/-- `generateNarrative` of `MemoryApp.tsx`. -/
def generateNarrative (st : AppState) (resp : Except Str NarrativeResponse) : Outcome :=
  if jsTrim st.searchTerm = [] then
    ⟨{ st with error := some pleaseEnterMsg }, false⟩
  else
    match st.sessionId with
    | none =>
      ⟨{ st with loading := false, error := some noSessionMsg }, false⟩
    | some _ =>
      match resp with
      | .ok r =>
        Outcome.mk
          { st with
            loading := false
            error := none
            narrative := pickNarrativeText r
            highlightedKeywords :=
              (match r.keywords with
              | some ks => extractKeywords ks
              | none => []) }
          true
      | .error e => ⟨{ st with loading := false, error := some e }, true⟩

/-- The per-record update of `handleIncreaseWeight`: set *both* weight
fields to the server's `new_weight`. -/
def increaseUpdate (memoryId : Int) (nw : ℚ) (memory : Memory) : Memory :=
  if memory.id = memoryId then
    { memory with weight := some nw, impact_weight := some nw }
  else memory

/-- The per-record update of `handleDecreaseWeight`: set only the
generic `weight` field to the server's `new_weight`. -/
def decreaseUpdate (memoryId : Int) (nw : ℚ) (memory : Memory) : Memory :=
  if memory.id = memoryId then { memory with weight := some nw }
  else memory

/-- `handleIncreaseWeight` of `MemoryApp.tsx`; `resp` is the outcome of
the `adjust_weight` call, `.ok nw` carrying `response.data.new_weight`. -/
def handleIncreaseWeight (dv : Str → Option Int) (st : AppState)
    (memoryId : Int) (resp : Except Str ℚ) : Outcome :=
  match st.sessionId with
  | none => ⟨{ st with error := some noSessionMsg }, false⟩
  | some _ =>
    match resp with
    | .ok nw =>
      ⟨{ st with memories :=
          sortMemories dv (st.memories.map (increaseUpdate memoryId nw)) st.sortBy }, true⟩
    | .error _ => ⟨{ st with error := some failedIncreaseMsg }, true⟩

/-- `handleDecreaseWeight` of `MemoryApp.tsx`. -/
def handleDecreaseWeight (dv : Str → Option Int) (st : AppState)
    (memoryId : Int) (resp : Except Str ℚ) : Outcome :=
  match st.sessionId with
  | none => ⟨{ st with error := some noSessionMsg }, false⟩
  | some _ =>
    match resp with
    | .ok nw =>
      ⟨{ st with memories :=
          sortMemories dv (st.memories.map (decreaseUpdate memoryId nw)) st.sortBy }, true⟩
    | .error _ => ⟨{ st with error := some failedDecreaseMsg }, true⟩

/-- `handleLocationUpdate` of `MemoryApp.tsx`: map the per-record
update over the store (no re-sort on this path). -/
def handleLocationUpdate (st : AppState) (memoryId : Int)
    (newLocation : Str) (updatedMemory : Option MemoryPatch) : AppState :=
  { st with memories := st.memories.map (locUpdateFn memoryId newLocation updatedMemory) }

/-! ### Spec-side definitions and concrete data for the claims -/

/-- The effective weight as the spec words it: `weight ?? 1.0`, i.e.
only a *missing* weight defaults to `1.0` (an explicit `0` stays `0`).
Compare with `jsEffWeight`, which follows the code's `weight || 1.0`. -/
def specEffWeight (m : Memory) : ℚ := m.weight.getD 1

/-- Keyword extraction as the claim words it: keep every plain-string
entry and the `text` field of every entry tagged `"primary"`, drop the
rest. Compare with `extractKeywords` from the code. -/
def claimedExtract (ks : List KwEntry) : List (Option Str) :=
  ks.filterMap fun kw =>
    match kw with
    | .jstr s => some (some s)
    | .jobj ty tx => if ty = some primaryTag then some tx else none
    | _ => none

/-- The amended keyword extraction: as `claimedExtract`, except that an
*empty* plain-string entry is also dropped (it is falsy in JS). -/
def amendedExtract (ks : List KwEntry) : List (Option Str) :=
  ks.filterMap fun kw =>
    match kw with
    | .jstr s => if s = [] then none else some (some s)
    | .jobj ty tx => if ty = some primaryTag then some tx else none
    | _ => none

/-- A memory record with the given id and weight and empty/absent
remaining fields. -/
def mkMemory (i : Int) (w : Option ℚ) : Memory :=
  { id := i
    title := []
    location := []
    date := []
    keywords := none
    type := []
    description := none
    weight := w
    filename := none
    image_url := none
    original_path := none
    processed_path := none
    openai_keywords := none
    openai_description := none
    impact_weight := none
    detected_objects := none
    relevance_score := none }

/-- A date-parse stub for inputs whose sort criterion never parses a
date. -/
def dvNone : Str → Option Int := fun _ => none

/-- Input refuting the claimed `?? 1.0` weight order: an explicit
weight `0` is falsy, so the code treats it as `1.0` and leaves the
record in front of a weight-`1` record. -/
def c1CexList : List Memory := [mkMemory 1 (some 0), mkMemory 2 (some 1)]

def c1wA : Memory := mkMemory 1 (some 1)

def c1wB : Memory := mkMemory 2 (some 1)

/-- A baseline UI state with a non-empty search term and a session. -/
def stBase : AppState :=
  { memories := []
    narrative := []
    searchTerm := "query".data
    error := none
    loading := false
    memoryType := "user".data
    highlightedKeywords := []
    sortBy := SortOption.weight
    resetMessage := none
    sessionId := some ("s1".data) }

def stW3 : AppState := { stBase with memories := [mkMemory 5 (some 1)] }

def stWS : AppState := { stBase with searchTerm := "   ".data }

def m4W : Memory :=
  { mkMemory 7 none with
    location := unknownLocation
    date := "2021-05-01".data
    title := "old title".data }

def st4W : AppState := { stBase with memories := [m4W] }

def m5W : Memory :=
  { mkMemory 8 none with
    location := "Paris".data
    title := "Paris in spring".data }

def st9W : AppState := { stBase with memories := [mkMemory 1 (some 1)] }

/-! ### Helper lemmas -/

lemma weightLe_trans (a b c : Memory) :
    weightLe a b → weightLe b c → weightLe a c := by
  intro h1 h2
  simp only [weightLe, decide_eq_true_eq] at h1 h2 ⊢
  exact le_trans h2 h1

lemma weightLe_total (a b : Memory) : weightLe a b || weightLe b a := by
  simp only [weightLe, Bool.or_eq_true, decide_eq_true_eq]
  exact le_total _ _

lemma sortMemories_perm (dv : Str → Option Int) (l : List Memory)
    (opt : SortOption) : (sortMemories dv l opt).Perm l := by
  cases opt <;> exact List.mergeSort_perm l _

lemma map_increaseUpdate_weight {l : List Memory} {memoryId : Int} {nw : ℚ} :
    ∀ m ∈ l.map (increaseUpdate memoryId nw), m.id = memoryId →
      m.weight = some nw ∧ m.impact_weight = some nw := by
  intro m hm hid
  obtain ⟨m₀, hm₀, rfl⟩ := List.mem_map.mp hm
  unfold increaseUpdate at hid ⊢
  by_cases h0 : m₀.id = memoryId
  · rw [if_pos h0]
    exact ⟨rfl, rfl⟩
  · rw [if_neg h0] at hid
    exact absurd hid h0

lemma map_decreaseUpdate_weight {l : List Memory} {memoryId : Int} {nw : ℚ} :
    ∀ m ∈ l.map (decreaseUpdate memoryId nw), m.id = memoryId →
      m.weight = some nw
        ∧ ∃ m₀ ∈ l, m₀.id = memoryId ∧ m.impact_weight = m₀.impact_weight := by
  intro m hm hid
  obtain ⟨m₀, hm₀, rfl⟩ := List.mem_map.mp hm
  unfold decreaseUpdate at hid ⊢
  by_cases h0 : m₀.id = memoryId
  · rw [if_pos h0]
    exact ⟨rfl, m₀, hm₀, h0, rfl⟩
  · rw [if_neg h0] at hid
    exact absurd hid h0

lemma replaceFirst_first_occ (pat rep : Str) (hpat : pat ≠ []) :
    ∀ p q : Str,
      (∀ p2 q2 : Str, p ++ pat ++ q = p2 ++ pat ++ q2 → p.length ≤ p2.length) →
      replaceFirst (p ++ pat ++ q) pat rep = p ++ rep ++ q := by
  intro p
  induction p with
  | nil =>
    intro q hmin
    simp only [List.nil_append]
    cases pat with
    | nil => exact absurd rfl hpat
    | cons c pt =>
      rw [List.cons_append, replaceFirst,
        if_pos (List.isPrefixOf_iff_prefix.mpr ⟨q, by simp⟩)]
      simp [List.drop_left]
  | cons a p' ih =>
    intro q hmin
    have hne : ¬ pat.isPrefixOf (a :: (p' ++ pat ++ q)) = true := by
      intro hpre
      obtain ⟨t, ht⟩ := List.isPrefixOf_iff_prefix.mp hpre
      have h0 := hmin [] t (by simp [ht])
      simp at h0
    have hs : (a :: p') ++ pat ++ q = a :: (p' ++ pat ++ q) := by simp
    rw [hs, replaceFirst, if_neg hne]
    have hmin' : ∀ p2 q2 : Str,
        p' ++ pat ++ q = p2 ++ pat ++ q2 → p'.length ≤ p2.length := by
      intro p2 q2 he
      have h1 := hmin (a :: p2) q2 (by simp [he])
      simpa using h1
    rw [ih q hmin']
    simp

lemma extractKeywords_cons (k : KwEntry) (t : List KwEntry) :
    extractKeywords (k :: t)
      = if kwTruthy k && (kwIsString k || kwTypeField k == some primaryTag)
        then kwMapped k :: extractKeywords t else extractKeywords t := by
  by_cases hk : (kwTruthy k && (kwIsString k || kwTypeField k == some primaryTag)) = true
  · simp [extractKeywords, List.filter_cons, hk]
  · simp [extractKeywords, List.filter_cons, hk]

/-- C1 (as stated) is false: with an explicit weight `0` (falsy, so the
code reads it as `1.0`) in front of a weight-`1` record, the output is
not in descending order of `weight ?? 1.0`. -/
theorem c1_counterexample :
    ¬ (sortMemories dvNone c1CexList SortOption.weight).Pairwise
        (fun a b => specEffWeight b ≤ specEffWeight a) := by
  have hsorted : List.Pairwise (fun a b => weightLe a b = true) c1CexList := by
    refine List.pairwise_cons.mpr ⟨?_, List.pairwise_singleton _ _⟩
    intro b hb
    rw [List.mem_singleton] at hb
    subst hb
    decide
  have h : sortMemories dvNone c1CexList SortOption.weight = c1CexList :=
    List.mergeSort_of_sorted hsorted
  rw [h]
  intro hp
  have h2 := (List.pairwise_cons.mp hp).1 (mkMemory 2 (some 1))
    (List.mem_singleton_self _)
  revert h2
  decide

/-- C1 amended: sorting by weight yields a descending order over the
*falsy-defaulted* effective weight `weight || 1.0` (missing *or zero*
weight reads as `1.0`), and records with equal effective weight keep
their relative order. -/
theorem c1_weight_sort_amended (dv : Str → Option Int) (l : List Memory) :
    (sortMemories dv l SortOption.weight).Pairwise
      (fun a b => jsEffWeight b ≤ jsEffWeight a)
    ∧ ∀ a b : Memory, jsEffWeight a = jsEffWeight b →
        [a, b].Sublist l →
        [a, b].Sublist (sortMemories dv l SortOption.weight) := by
  constructor
  · have h := List.sorted_mergeSort weightLe_trans weightLe_total l
    refine h.imp ?_
    intro a b hab
    simpa only [weightLe, decide_eq_true_eq] using hab
  · intro a b heq hsub
    refine List.pair_sublist_mergeSort weightLe_trans weightLe_total ?_ hsub
    simp [weightLe, heq]

theorem c1_weight_sort_amended_witness :
    ((sortMemories dvNone [c1wA, c1wB] SortOption.weight).Pairwise
      (fun a b => jsEffWeight b ≤ jsEffWeight a))
    ∧ [c1wA, c1wB].Sublist (sortMemories dvNone [c1wA, c1wB] SortOption.weight) :=
  ⟨(c1_weight_sort_amended dvNone [c1wA, c1wB]).1,
   (c1_weight_sort_amended dvNone [c1wA, c1wB]).2 c1wA c1wB (by decide)
     (List.Sublist.refl _)⟩

/-- C8: for every list and criterion the client-side sort returns a
permutation of its input (same multiset, same length); the embedding is
pure, matching the source's copy-before-sort (`[...memoriesToSort]`). -/
theorem c8_sort_permutation (dv : Str → Option Int) (l : List Memory)
    (opt : SortOption) :
    (sortMemories dv l opt).Perm l
    ∧ (sortMemories dv l opt).length = l.length :=
  ⟨sortMemories_perm dv l opt, (sortMemories_perm dv l opt).length_eq⟩

/-- C2: with a non-empty term and a session, a successful search
replaces the store with exactly the server's list (no client-side
re-sort on this path), while a failed search leaves the store exactly
as it was and sets the error message. -/
theorem c2_search_replaces_store (st : AppState) (sid : Str)
    (h1 : jsTrim st.searchTerm ≠ []) (h2 : st.sessionId = some sid) :
    (∀ data : List Memory,
      (searchMemories st (Except.ok data)).state.memories = data)
    ∧ ∀ e : Str,
      (searchMemories st (Except.error e)).state.memories = st.memories
      ∧ (searchMemories st (Except.error e)).state.error = some e := by
  constructor
  · intro data
    unfold searchMemories
    rw [if_neg h1, h2]
  · intro e
    unfold searchMemories
    rw [if_neg h1, h2]
    exact ⟨rfl, rfl⟩

theorem c2_witness :
    (searchMemories stBase (Except.ok [c1wA])).state.memories = [c1wA]
    ∧ (searchMemories stBase (Except.error ("boom".data))).state.error
        = some ("boom".data) :=
  ⟨(c2_search_replaces_store stBase ("s1".data) (by decide) rfl).1 [c1wA],
   ((c2_search_replaces_store stBase ("s1".data) (by decide) rfl).2
     ("boom".data)).2⟩

/-- C3: on a successful weight adjustment (either direction) the
matching record's weight becomes exactly the server-returned
`new_weight` — for *every* returned value, independent of the old
local weight — and the store is re-sorted under the state's current
sort criterion. -/
theorem c3_weight_adjust_authoritative (dv : Str → Option Int)
    (st : AppState) (memoryId : Int) (nw : ℚ) (sid : Str)
    (h : st.sessionId = some sid) :
    ((handleIncreaseWeight dv st memoryId (Except.ok nw)).state.memories
        = sortMemories dv (st.memories.map (increaseUpdate memoryId nw)) st.sortBy
      ∧ ∀ m ∈ (handleIncreaseWeight dv st memoryId (Except.ok nw)).state.memories,
          m.id = memoryId → m.weight = some nw)
    ∧ ((handleDecreaseWeight dv st memoryId (Except.ok nw)).state.memories
        = sortMemories dv (st.memories.map (decreaseUpdate memoryId nw)) st.sortBy
      ∧ ∀ m ∈ (handleDecreaseWeight dv st memoryId (Except.ok nw)).state.memories,
          m.id = memoryId → m.weight = some nw) := by
  have e1 : (handleIncreaseWeight dv st memoryId (Except.ok nw)).state.memories
      = sortMemories dv (st.memories.map (increaseUpdate memoryId nw)) st.sortBy := by
    unfold handleIncreaseWeight
    rw [h]
  have e2 : (handleDecreaseWeight dv st memoryId (Except.ok nw)).state.memories
      = sortMemories dv (st.memories.map (decreaseUpdate memoryId nw)) st.sortBy := by
    unfold handleDecreaseWeight
    rw [h]
  refine ⟨⟨e1, ?_⟩, ⟨e2, ?_⟩⟩
  · intro m hm hid
    rw [e1] at hm
    exact (map_increaseUpdate_weight m
      ((sortMemories_perm dv _ st.sortBy).mem_iff.mp hm) hid).1
  · intro m hm hid
    rw [e2] at hm
    exact (map_decreaseUpdate_weight m
      ((sortMemories_perm dv _ st.sortBy).mem_iff.mp hm) hid).1

theorem c3_witness :
    (handleIncreaseWeight dvNone stW3 5 (Except.ok 2)).state.memories
      = sortMemories dvNone (stW3.memories.map (increaseUpdate 5 2)) stW3.sortBy
    ∧ (handleDecreaseWeight dvNone stW3 5 (Except.ok 2)).state.memories
      = sortMemories dvNone (stW3.memories.map (decreaseUpdate 5 2)) stW3.sortBy :=
  ⟨(c3_weight_adjust_authoritative dvNone stW3 5 2 ("s1".data) rfl).1.1,
   (c3_weight_adjust_authoritative dvNone stW3 5 2 ("s1".data) rfl).2.1⟩

/-- C10: a successful increase writes the server value into *both*
`weight` and `impact_weight` of the matching record; a successful
decrease writes only `weight`, carrying `impact_weight` over from the
matching record of the prior store. -/
theorem c10_dual_weight_fields (dv : Str → Option Int) (st : AppState)
    (memoryId : Int) (nw : ℚ) (sid : Str) (h : st.sessionId = some sid) :
    (∀ m ∈ (handleIncreaseWeight dv st memoryId (Except.ok nw)).state.memories,
        m.id = memoryId → m.weight = some nw ∧ m.impact_weight = some nw)
    ∧ ∀ m ∈ (handleDecreaseWeight dv st memoryId (Except.ok nw)).state.memories,
        m.id = memoryId → m.weight = some nw
          ∧ ∃ m₀ ∈ st.memories, m₀.id = memoryId
              ∧ m.impact_weight = m₀.impact_weight := by
  have e1 : (handleIncreaseWeight dv st memoryId (Except.ok nw)).state.memories
      = sortMemories dv (st.memories.map (increaseUpdate memoryId nw)) st.sortBy := by
    unfold handleIncreaseWeight
    rw [h]
  have e2 : (handleDecreaseWeight dv st memoryId (Except.ok nw)).state.memories
      = sortMemories dv (st.memories.map (decreaseUpdate memoryId nw)) st.sortBy := by
    unfold handleDecreaseWeight
    rw [h]
  constructor
  · intro m hm hid
    rw [e1] at hm
    exact map_increaseUpdate_weight m
      ((sortMemories_perm dv _ st.sortBy).mem_iff.mp hm) hid
  · intro m hm hid
    rw [e2] at hm
    exact map_decreaseUpdate_weight m
      ((sortMemories_perm dv _ st.sortBy).mem_iff.mp hm) hid

theorem c10_witness :
    (increaseUpdate 5 2 (mkMemory 5 (some 1))).weight = some 2
    ∧ (increaseUpdate 5 2 (mkMemory 5 (some 1))).impact_weight = some 2
    ∧ (decreaseUpdate 5 2 (mkMemory 5 (some 1))).weight = some 2 := by
  have e1 : (handleIncreaseWeight dvNone stW3 5 (Except.ok 2)).state.memories
      = [increaseUpdate 5 2 (mkMemory 5 (some 1))] := by
    show sortMemories dvNone ([mkMemory 5 (some 1)].map (increaseUpdate 5 2))
        SortOption.weight = _
    rw [List.map_singleton]
    exact List.mergeSort_singleton _
  have e2 : (handleDecreaseWeight dvNone stW3 5 (Except.ok 2)).state.memories
      = [decreaseUpdate 5 2 (mkMemory 5 (some 1))] := by
    show sortMemories dvNone ([mkMemory 5 (some 1)].map (decreaseUpdate 5 2))
        SortOption.weight = _
    rw [List.map_singleton]
    exact List.mergeSort_singleton _
  have h1 := (c10_dual_weight_fields dvNone stW3 5 2 ("s1".data) rfl).1
    (increaseUpdate 5 2 (mkMemory 5 (some 1)))
    (by rw [e1]; exact List.mem_singleton_self _) (by decide)
  have h2 := (c10_dual_weight_fields dvNone stW3 5 2 ("s1".data) rfl).2
    (decreaseUpdate 5 2 (mkMemory 5 (some 1)))
    (by rw [e2]; exact List.mem_singleton_self _) (by decide)
  exact ⟨h1.1, h1.2, h2.1⟩

/-- C4: the partial location update on a record whose location is the
sentinel "Unknown Location" sets the title to exactly
`<newLocation> - <date>` (and the location to the new value); the
updated record is what `handleLocationUpdate` puts in the store. -/
theorem c4_sentinel_title (memoryId : Int) (newLocation : Str)
    (m : Memory) (st : AppState)
    (h1 : m.id = memoryId) (h2 : m.location = unknownLocation)
    (hm : m ∈ st.memories) :
    (locUpdateFn memoryId newLocation none m).title
      = newLocation ++ titleSep ++ m.date
    ∧ (locUpdateFn memoryId newLocation none m).location = newLocation
    ∧ locUpdateFn memoryId newLocation none m
        ∈ (handleLocationUpdate st memoryId newLocation none).memories := by
  refine ⟨?_, ?_, ?_⟩
  · simp [locUpdateFn, h1, h2]
  · simp [locUpdateFn, h1]
  · show _ ∈ st.memories.map (locUpdateFn memoryId newLocation none)
    exact List.mem_map_of_mem _ hm

theorem c4_witness :
    (locUpdateFn 7 ("Kyoto".data) none m4W).title
      = "Kyoto".data ++ titleSep ++ m4W.date
    ∧ (locUpdateFn 7 ("Kyoto".data) none m4W).location = "Kyoto".data
    ∧ locUpdateFn 7 ("Kyoto".data) none m4W
        ∈ (handleLocationUpdate st4W 7 ("Kyoto".data) none).memories :=
  c4_sentinel_title 7 ("Kyoto".data) m4W st4W (by decide) (by decide)
    (List.mem_singleton_self _)

/-- C5: the partial location update on a record whose location is not
the sentinel replaces exactly the first occurrence of the old location
inside the title by the new location, leaving the prefix before it and
the suffix after it unchanged. -/
theorem c5_replace_first_occurrence (memoryId : Int) (newLocation : Str)
    (m : Memory) (p q : Str)
    (h1 : m.id = memoryId) (h2 : m.location ≠ unknownLocation)
    (h3 : m.location ≠ [])
    (h4 : m.title = p ++ m.location ++ q)
    (h5 : ∀ p2 q2 : Str, m.title = p2 ++ m.location ++ q2 →
            p.length ≤ p2.length) :
    (locUpdateFn memoryId newLocation none m).title = p ++ newLocation ++ q
    ∧ (locUpdateFn memoryId newLocation none m).location = newLocation := by
  constructor
  · have e : (locUpdateFn memoryId newLocation none m).title
        = replaceFirst m.title m.location newLocation := by
      simp [locUpdateFn, h1, h2]
    rw [e, h4]
    refine replaceFirst_first_occ m.location newLocation h3 p q ?_
    intro p2 q2 he
    exact h5 p2 q2 (h4.trans he)
  · simp [locUpdateFn, h1]

theorem c5_witness :
    (locUpdateFn 8 ("Lyon".data) none m5W).title
      = [] ++ "Lyon".data ++ " in spring".data
    ∧ (locUpdateFn 8 ("Lyon".data) none m5W).location = "Lyon".data :=
  c5_replace_first_occurrence 8 ("Lyon".data) m5W [] (" in spring".data)
    (by decide) (by decide) (by decide) (by decide)
    (fun _ _ _ => Nat.zero_le _)

/-- C6: with an empty or all-whitespace search term, both search and
narrative generation issue no network request, change nothing but the
error slot, and set the precondition error message. -/
theorem c6_empty_term_guard (st : AppState)
    (resp1 : Except Str (List Memory)) (resp2 : Except Str NarrativeResponse)
    (h : jsTrim st.searchTerm = []) :
    searchMemories st resp1
      = ⟨{ st with error := some pleaseEnterMsg }, false⟩
    ∧ generateNarrative st resp2
      = ⟨{ st with error := some pleaseEnterMsg }, false⟩ := by
  constructor
  · unfold searchMemories
    rw [if_pos h]
  · unfold generateNarrative
    rw [if_pos h]

theorem c6_witness :
    searchMemories stWS (Except.ok [])
      = ⟨{ stWS with error := some pleaseEnterMsg }, false⟩
    ∧ generateNarrative stWS (Except.error ("x".data))
      = ⟨{ stWS with error := some pleaseEnterMsg }, false⟩ :=
  c6_empty_term_guard stWS (Except.ok []) (Except.error ("x".data)) (by decide)

/-- C7 (as stated) is false: an empty plain-string keyword entry is a
plain-string entry, but it is falsy, so the code's filter silently
drops it. -/
theorem c7_counterexample :
    extractKeywords [KwEntry.jstr []] ≠ claimedExtract [KwEntry.jstr []] := by
  decide

/-- C7 amended: the extracted keyword list consists of exactly the
*non-empty* plain-string entries and the `text` fields of entries
tagged "primary", in input order; every other entry — the empty
string, a wrong or missing tag, `null`, or a non-string non-object —
is silently dropped. -/
theorem c7_keyword_extraction_amended (ks : List KwEntry) :
    extractKeywords ks = amendedExtract ks := by
  induction ks with
  | nil => rfl
  | cons k t ih =>
    rw [extractKeywords_cons]
    cases k with
    | jstr s =>
      cases s with
      | nil =>
        simpa [amendedExtract, List.filterMap_cons, kwTruthy] using ih
      | cons c s' =>
        simpa [amendedExtract, List.filterMap_cons, kwTruthy, kwIsString,
          kwMapped] using ih
    | jobj ty tx =>
      by_cases hty : ty = some primaryTag
      · simpa [amendedExtract, List.filterMap_cons, kwTruthy, kwIsString,
          kwTypeField, kwMapped, kwTextField, hty] using ih
      · simpa [amendedExtract, List.filterMap_cons, kwTruthy, kwIsString,
          kwTypeField, hty] using ih
    | jnull =>
      simpa [amendedExtract, List.filterMap_cons, kwTruthy] using ih
    | jbool b =>
      simpa [amendedExtract, List.filterMap_cons, kwTruthy, kwIsString,
        kwTypeField] using ih
    | jnum n =>
      simpa [amendedExtract, List.filterMap_cons, kwTruthy, kwIsString,
        kwTypeField] using ih

/-- C9: a location update (partial or full-record form) whose
identifier matches no record leaves the store exactly as it was, every
record and the order included. -/
theorem c9_no_match_frame (st : AppState) (memoryId : Int)
    (newLocation : Str) (updatedMemory : Option MemoryPatch)
    (h : ∀ m ∈ st.memories, m.id ≠ memoryId) :
    (handleLocationUpdate st memoryId newLocation updatedMemory).memories
      = st.memories := by
  show st.memories.map (locUpdateFn memoryId newLocation updatedMemory)
      = st.memories
  have hfix : ∀ m ∈ st.memories,
      locUpdateFn memoryId newLocation updatedMemory m = m := by
    intro m hm
    unfold locUpdateFn
    rw [if_neg (h m hm)]
  rw [List.map_congr_left hfix]
  exact List.map_id' st.memories

theorem c9_witness :
    (handleLocationUpdate st9W 99 ("Lyon".data) none).memories
      = st9W.memories :=
  c9_no_match_frame st9W 99 ("Lyon".data) none (by decide)
